import Mathlib

/-!
A shallow embedding of `src/scenario/mocking.py`: the call-interception
simulation core (`wrap_tool` and `_MockExecProcess`) that replaces real
backend tool operations with reads/writes of an in-memory `Scene`.

Python dictionaries are modelled as association lists in insertion order
(first-match lookup, in-place replacement on update), Python `None` and
friends as a small `PyVal` type, exceptions as an explicit `Err` type, and
in-place mutation as explicit state passing.  On-disk files backing the
simulated container filesystem (created with `tempfile` by the push
operation) are modelled by a `disk` association list from an abstract file
reference to its contents.
-/

namespace Scenario

/-! ### Python dictionary operations over association lists -/

/-- `d.get(k)` / `d[k]`-style first-match lookup in a Python dict modelled
as an association list in insertion order. -/
def dictGet {κ α : Type} [DecidableEq κ] (d : List (κ × α)) (k : κ) : Option α :=
  (d.find? (fun p => p.1 = k)).map (·.2)

/-- `d[k] = v`: replace the binding of `k` in place, or append a new one,
preserving insertion order like a Python dict. -/
def dictSet {κ α : Type} [DecidableEq κ] (d : List (κ × α)) (k : κ) (v : α) :
    List (κ × α) :=
  match d with
  | [] => [(k, v)]
  | (k', v') :: rest => if k' = k then (k, v) :: rest else (k', v') :: dictSet rest k v

theorem dictGet_nil {κ α : Type} [DecidableEq κ] (k : κ) :
    dictGet ([] : List (κ × α)) k = none := rfl

theorem dictGet_cons {κ α : Type} [DecidableEq κ] (k k' : κ) (v : α) (d : List (κ × α)) :
    dictGet ((k', v) :: d) k = if k' = k then some v else dictGet d k := by
  by_cases h : k' = k <;> simp [dictGet, List.find?, h]

theorem dictGet_dictSet_self {κ α : Type} [DecidableEq κ] (d : List (κ × α)) (k : κ) (v : α) :
    dictGet (dictSet d k v) k = some v := by
  induction d with
  | nil => simp [dictSet, dictGet, List.find?]
  | cons p rest ih =>
    obtain ⟨k', v'⟩ := p
    by_cases h : k' = k <;> simp [dictSet, h, dictGet_cons, ih]

theorem dictSet_ne_nil {κ α : Type} [DecidableEq κ] (d : List (κ × α)) (k : κ) (v : α) :
    dictSet d k v ≠ [] := by
  cases d with
  | nil => simp [dictSet]
  | cons p rest =>
    obtain ⟨k', v'⟩ := p
    by_cases h : k' = k <;> simp [dictSet, h]

/-- Re-writing a key with the value it already holds is the identity:
this is what the in-place cursor descent of the Python walks does to
every ancestor node it merely traverses. -/
theorem dictSet_self {κ α : Type} [DecidableEq κ] {d : List (κ × α)} {k : κ} {v : α}
    (h : dictGet d k = some v) : dictSet d k v = d := by
  induction d with
  | nil => simp [dictGet] at h
  | cons p rest ih =>
    obtain ⟨k', v'⟩ := p
    rw [dictGet_cons] at h
    by_cases hk : k' = k
    · simp [hk] at h
      simp [dictSet, hk, h]
    · simp [hk] at h
      simp [dictSet, hk, ih h]

theorem dictGet_append {κ α : Type} [DecidableEq κ] (d d' : List (κ × α)) (k : κ) :
    dictGet (d ++ d') k =
      match dictGet d k with
      | some v => some v
      | none => dictGet d' k := by
  induction d with
  | nil => simp [dictGet]
  | cons p rest ih =>
    obtain ⟨k', v'⟩ := p
    by_cases h : k' = k <;> simp [dictGet_cons, h, ih]

/-! ### Python values and exceptions -/

/-- A small universe for Python configuration values; `noneV` is `None`. -/
inductive PyVal where
  | noneV : PyVal
  | str : String → PyVal
  | int : Int → PyVal
  | bool : Bool → PyVal
  deriving Repr, DecidableEq

/-- The exception conditions `wrap_tool` and `_MockExecProcess` can raise.
`stateError op cause` models `raise StateError(msg) from e`, with the
message abstracted to the `namespace.tool` pair (the argument repr that the
Python message also embeds is diagnostic only and is not modelled). -/
inductive Err where
  | stopIteration : Err
  | keyError : String → Err
  | indexError : Err
  | typeError : String → Err
  | attributeError : String → Err
  | runtimeError : String → Err
  | notImplementedError : String → Err
  | fileNotFoundError : String → Err
  | execError : List String → Int → Err
  | stateError : String → Err → Err
  deriving Repr, DecidableEq

/-- The `except Exception` clause at the end of `wrap_tool`: re-raise the
original exception when `wrap_errors` was left `False`, otherwise wrap it
in a `StateError` recording the namespace and tool name. -/
def finishTool {α : Type} (ns tool : String) (wrapErrors : Bool) (r : Except Err α) :
    Except Err α :=
  match r with
  | .ok v => .ok v
  | .error e => if wrapErrors then .error (.stateError (ns ++ "." ++ tool) e) else .error e

/-! ### The State model consumed by the core -/

structure RelationMeta where
  relation_id : Nat
  endpoint : String
  interface : String
  remote_app_name : String
  remote_unit_ids : List Nat
  deriving Repr, DecidableEq

structure Relation where
  meta : RelationMeta
  local_app_data : List (String × String)
  local_unit_data : List (String × String)
  remote_app_data : List (String × String)
  remote_units_data : List (Nat × List (String × String))
  deriving Repr, DecidableEq

/-- A node of a container's simulated filesystem tree: either a directory
dict or a `Path` to a backing file on disk (abstracted to a `Nat` ref). -/
inductive FS where
  | dir : List (String × FS) → FS
  | file : Nat → FS

/-- Python truthiness of a filesystem node: an empty dict is falsy, a
non-empty dict and a `Path` object are truthy. -/
def fsTruthy : FS → Bool
  | .dir es => !es.isEmpty
  | .file _ => true

/-- Canned result of a simulated remote process execution.  Modelled from
the spec: the `ExecOutput` record lives in `scenario.structs`, which is not
under `src/`; per the spec it carries stdout, stderr and an exit code. -/
structure ExecOutput where
  stdout : String
  stderr : String
  return_code : Int
  deriving Repr, DecidableEq

/-- A declared service layer: the mapping stored under the layer's
`"services"` key, from service name to its definition (abstracted to an
opaque string). -/
structure Layer where
  services : List (String × String)
  deriving Repr, DecidableEq

structure Container where
  name : String
  filesystem : List (String × FS)
  exec_mock : List (List String × ExecOutput)
  can_connect : Bool
  layers : List Layer

structure Status where
  app : String × String
  unit : String × String
  app_version : String
  deriving Repr, DecidableEq

structure State where
  leader : Bool
  status : Status
  juju_log : List (List String)
  relations : List Relation
  containers : List Container
  config : List (String × PyVal)

structure SceneMeta where
  unit_name : String
  app_name : String
  deriving Repr, DecidableEq

structure Scene where
  state : State
  meta : SceneMeta

/-- The charm spec: the declared config schema, each option being a dict
that may carry a `"default"` entry. -/
structure CharmSpec where
  config : List (String × List (String × PyVal))
  deriving Repr, DecidableEq

/-! ### `_MockExecProcess` -/

/-- The simulated process handle returned by the `exec` tool.  `stdout` and
`stderr` model the `StringIO` streams built from the canned output. -/
structure MockExecProcess where
  command : List String
  change_id : Nat
  out : ExecOutput
  waited : Bool
  stdout : String
  stderr : String
  deriving Repr, DecidableEq

/-- `_MockExecProcess.wait`: set the `_waited` flag, then raise
`pebble.ExecError` when the canned exit code is non-zero. -/
def MockExecProcess.wait (p : MockExecProcess) : MockExecProcess × Except Err Unit :=
  let p' := { p with waited := true }
  if p.out.return_code ≠ 0 then
    (p', .error (.execError p.command p.out.return_code))
  else
    (p', .ok ())

/-- `_MockExecProcess.wait_output`: raise `pebble.ExecError` when the canned
exit code is non-zero, otherwise return the canned stdout/stderr pair.  Note
that, unlike `wait`, it never touches the `_waited` flag. -/
def MockExecProcess.wait_output (p : MockExecProcess) :
    MockExecProcess × Except Err (String × String) :=
  if p.out.return_code ≠ 0 then
    (p, .error (.execError p.command p.out.return_code))
  else
    (p, .ok (p.out.stdout, p.out.stderr))

/-! ### The `_ModelBackend` namespace of `wrap_tool` -/

/-- The `_ModelBackend` tool calls modelled here, with their decoded
argument tuples. -/
inductive ModelCall where
  | is_leader : ModelCall
  | relation_ids : ModelCall
  | config_get : Option String → ModelCall
  | relation_set : Nat → String → String → Bool → ModelCall

def ModelCall.toolName : ModelCall → String
  | .is_leader => "is_leader"
  | .relation_ids => "relation_ids"
  | .config_get _ => "config_get"
  | .relation_set _ _ _ _ => "relation_set"

/-- Return values of the modelled `_ModelBackend` tools. -/
inductive ModelResult where
  | bool : Bool → ModelResult
  | ids : List Nat → ModelResult
  | val : PyVal → ModelResult
  | configMap : List (String × PyVal) → ModelResult
  | noneVal : ModelResult
  deriving Repr, DecidableEq

/-- Update the first relation whose `meta.relation_id` matches, modelling
the in-place mutation of the object produced by `next(filter(...))`. -/
def updateFirstRelation (rels : List Relation) (rel_id : Nat) (f : Relation → Relation) :
    List Relation :=
  match rels with
  | [] => []
  | r :: rest =>
    if r.meta.relation_id = rel_id then f r :: rest
    else r :: updateFirstRelation rest rel_id f

/-- `value.get("default")` over a declared config option. -/
def optionDefault (opt : List (String × PyVal)) : PyVal :=
  (dictGet opt "default").getD .noneV

/-- The effective config mapping of `config_get`: `State.config` itself
when non-empty (dicts are falsy iff empty), otherwise the mapping
synthesized from the declared schema's defaults. -/
def effectiveConfig (st : State) (spec : CharmSpec) : List (String × PyVal) :=
  if st.config.isEmpty then
    spec.config.map (fun kv => (kv.1, optionDefault kv.2))
  else
    st.config

/-- The body of the `_ModelBackend` branches of `wrap_tool` (before the
`except` clause applies the wrapping policy): result plus resulting state. -/
def modelSimRaw (scene : Scene) (spec : CharmSpec) :
    ModelCall → Except Err ModelResult × State
  | .is_leader => (.ok (.bool scene.state.leader), scene.state)
  | .relation_ids =>
    (.ok (.ids (scene.state.relations.map (fun r => r.meta.relation_id))), scene.state)
  | .config_get key =>
    let state_config := effectiveConfig scene.state spec
    match key with
    | some k =>
      match dictGet state_config k with
      | some v => (.ok (.val v), scene.state)
      | none => (.error (.keyError k), scene.state)
    | none => (.ok (.configMap state_config), scene.state)
  | .relation_set rel_id key value app =>
    match scene.state.relations.find? (fun r => r.meta.relation_id = rel_id) with
    | none => (.error .stopIteration, scene.state)
    | some _ =>
      if app then
        if scene.state.leader then
          (.ok .noneVal,
            { scene.state with
              relations := updateFirstRelation scene.state.relations rel_id
                (fun r => { r with local_app_data := dictSet r.local_app_data key value }) })
        else
          (.error (.runtimeError "needs leadership to set app data"), scene.state)
      else
        (.ok .noneVal,
          { scene.state with
            relations := updateFirstRelation scene.state.relations rel_id
              (fun r => { r with local_unit_data := dictSet r.local_unit_data key value }) })

/-- A `_ModelBackend` tool call through `wrap_tool`: no branch of this
namespace ever clears `wrap_errors`, so every failure is wrapped in a
`StateError`. -/
def modelSim (scene : Scene) (spec : CharmSpec) (call : ModelCall) :
    Except Err ModelResult × State :=
  let (r, st) := modelSimRaw scene spec call
  (finishTool "_ModelBackend" call.toolName true r, st)

/-! ### The `Client` (pebble) namespace of `wrap_tool` -/

/-- The pebble-side world the `Client` tools read and mutate: the Scene's
containers, plus the host disk backing pushed files and the change-id
counter for exec handles. -/
structure PebbleState where
  containers : List Container
  disk : List (Nat × String)
  next_change_id : Nat

/-- Python `str.split(sep)` with a one-character separator, structurally
recursive over the character list (splits at every occurrence, keeping
empty pieces, exactly like `"".split(sep) == [""]`). -/
def splitCharAux (sep : Char) : List Char → List Char → List String
  | [], acc => [String.mk acc.reverse]
  | c :: rest, acc =>
    if c = sep then String.mk acc.reverse :: splitCharAux sep rest []
    else splitCharAux sep rest (c :: acc)

def splitChar (sep : Char) (s : String) : List String :=
  splitCharAux sep s.toList []

/-- `client.socket_path.split("/")[-2]`: the container name extracted from
the client handle's socket path (raises `IndexError` when the split has
fewer than two parts). -/
def socketContainerName (socket_path : String) : Except Err String :=
  let parts := splitChar '/' socket_path
  if h : 2 ≤ parts.length then .ok (parts.get ⟨parts.length - 2, by omega⟩)
  else .error .indexError

/-- The message of the `RuntimeError` raised when no configured container
matches the client handle. -/
def containerNotFoundMsg (cname socket_path : String) : String :=
  "container with name=" ++ cname ++ " not found. Did you forget a ContainerSpec, " ++
    "or is the socket path " ++ socket_path ++ " wrong?"

/-- The argument tuple of a simulated `Client._request` call. -/
inductive ReqArgs where
  | two : String → String → ReqArgs
  | three : String → String → List (String × String) → ReqArgs
  deriving Repr, DecidableEq

/-- The `Client` tool calls modelled here.  For `push`, `make_dirs = none`
models the keyword argument being absent from `call_kwargs`. -/
inductive ClientCall where
  | request : ReqArgs → ClientCall
  | exec : List String → ClientCall
  | pull : String → ClientCall
  | push : String → String → Option Bool → ClientCall

def ClientCall.toolName : ClientCall → String
  | .request _ => "_request"
  | .exec _ => "exec"
  | .pull _ => "pull"
  | .push _ _ _ => "push"

/-- Return values of the modelled `Client` tools. -/
inductive ClientResult where
  | versionPayload : String → ClientResult
  | services : List String → ClientResult
  | execProcess : MockExecProcess → ClientResult
  | fileHandle : String → ClientResult
  | noneVal : ClientResult
  deriving Repr, DecidableEq

/-- `list.remove(x)`: drop the first occurrence of `x`. -/
def removeFirst (xs : List String) (x : String) : List String :=
  match xs with
  | [] => []
  | y :: rest => if y = x then rest else y :: removeFirst rest x

theorem removeFirst_length_of_mem {xs : List String} {x : String} (hx : x ∈ xs) :
    (removeFirst xs x).length = xs.length - 1 := by
  induction xs with
  | nil => cases hx
  | cons y rest ih =>
    by_cases h : y = x
    · simp [removeFirst, h]
    · rcases List.mem_cons.mp hx with h' | h'
      · exact absurd h'.symm h
      · have hlen := ih h'
        have : 1 ≤ rest.length := List.length_pos.mpr (List.ne_nil_of_mem h')
        simp only [removeFirst, if_neg h, List.length_cons, hlen]
        omega

/-- The inner `for name in service_names:` loop over ONE layer, faithful to
CPython's list iterator: the iterator keeps a plain index into the list,
which keeps advancing even when `service_names.remove(name)` shifts the
remaining elements down by one (so the element right after a found name is
skipped for this layer).  Returns the surviving `service_names` list and
the definitions found in this layer, in iteration order. -/
def layerScan (svcs : List (String × String)) (names : List String) (i : Nat) :
    List String × List String :=
  if h : i < names.length then
    let name := names.get ⟨i, h⟩
    match dictGet svcs name with
    | some d =>
      let names' := removeFirst names name
      let r := layerScan svcs names' (i + 1)
      (r.1, d :: r.2)
    | none => layerScan svcs names (i + 1)
  else
    (names, [])
  termination_by names.length - i
  decreasing_by
  · have hm : names.get ⟨i, h⟩ ∈ names := names.get_mem i h
    have := removeFirst_length_of_mem hm
    have : 1 ≤ names.length := by omega
    simp_all
    omega
  · omega

/-- The outer `for layer in container.layers:` loop of the `/v1/services`
request: scan each layer with the (mutated) outstanding-names list, break
early once the list is empty, and concatenate the found definitions. -/
def servicesScan : List Layer → List String → List String
  | [], _ => []
  | layer :: rest, names =>
    if names.isEmpty then []
    else
      let r := layerScan layer.services names 0
      r.2 ++ servicesScan rest r.1

/-- The `for token in path.split("/")[1:]` loop of `pull`: repeatedly
`pos = pos.get(token)`, raising `FileNotFoundError(path)` when the new
cursor is falsy (absent key or empty dict) and `AttributeError` when `.get`
is called on a `Path` cursor. -/
def pullWalk (path : String) : FS → List String → Except Err FS
  | pos, [] => .ok pos
  | pos, t :: rest =>
    match pos with
    | .file _ => .error (.attributeError "get")
    | .dir es =>
      match dictGet es t with
      | none => .error (.fileNotFoundError path)
      | some nxt =>
        if fsTruthy nxt then pullWalk path nxt rest
        else .error (.fileNotFoundError path)

/-- The `pull` tool body: walk the path through the filesystem tree, then
require the resolved cursor to be a `Path` to an existing backing file and
return its contents (the open read handle). -/
def pebblePull (fs : List (String × FS)) (disk : List (Nat × String)) (path : String) :
    Except Err ClientResult :=
  let tokens := (splitChar '/' path).drop 1
  match pullWalk path (.dir fs) tokens with
  | .error e => .error e
  | .ok (.dir _) => .error (.typeError "argument should be a str or an os.PathLike object")
  | .ok (.file r) =>
    match dictGet disk r with
    | some contents => .ok (.fileHandle contents)
    | none => .error (.fileNotFoundError (toString r))

/-- How a `push` attempt ended: `errPre` aborted the intermediate walk
before the temp file was written, `errPost` failed at the final binding
after the temp file already exists on disk. -/
inductive PushOutcome where
  | ok : PushOutcome
  | errPre : Err → PushOutcome
  | errPost : Err → PushOutcome
  deriving Repr, DecidableEq

/-- The `for token in tokens[:-1]` loop of `push` plus the final
`pos[tokens[-1]] = pth` binding, over the entries of the current cursor
dict.  A falsy binding (absent key or empty dict) consults
`call_kwargs["make_dirs"]`: `KeyError` when the keyword is absent, a fresh
`{}` node when true, `FileNotFoundError(path)` when false.  A `Path`
binding at an intermediate position yields `TypeError` at the final
assignment (when it is the last intermediate token) or `AttributeError` at
the next iteration's `.get`.  Ancestor nodes are rewritten with `dictSet`,
mirroring the in-place cursor mutation. -/
def pushWalk (es : List (String × FS)) (ts : List String) (lastTok : String)
    (ref : Nat) (make_dirs : Option Bool) (path : String) :
    PushOutcome × List (String × FS) :=
  match ts with
  | [] => (.ok, dictSet es lastTok (.file ref))
  | t :: rest =>
    match dictGet es t with
    | some (.dir sub) =>
      if sub.isEmpty then
        match make_dirs with
        | some true =>
          let r := pushWalk [] rest lastTok ref make_dirs path
          (r.1, dictSet es t (.dir r.2))
        | some false => (.errPre (.fileNotFoundError path), es)
        | none => (.errPre (.keyError "make_dirs"), es)
      else
        let r := pushWalk sub rest lastTok ref make_dirs path
        (r.1, dictSet es t (.dir r.2))
    | some (.file _) =>
      match rest with
      | [] => (.errPost (.typeError "item assignment"), es)
      | _ :: _ => (.errPre (.attributeError "get"), es)
    | none =>
      match make_dirs with
      | some true =>
        let r := pushWalk [] rest lastTok ref make_dirs path
        (r.1, dictSet es t (.dir r.2))
      | some false => (.errPre (.fileNotFoundError path), es)
      | none => (.errPre (.keyError "make_dirs"), es)

/-- A disk ref strictly greater than every ref already on disk, modelling
the fresh temp file `tempfile.NamedTemporaryFile` hands out. -/
def freshRef (disk : List (Nat × String)) : Nat :=
  disk.foldr (fun p acc => max (p.1 + 1) acc) 0

/-- The `push` tool body: split the path, walk the intermediate tokens,
write the temp file (only if the intermediate walk completed — it precedes
the final binding in the source), and bind the final token.  An empty token
list makes `tokens[-1]` raise `IndexError` after the temp file was already
written. -/
def pebblePush (fs : List (String × FS)) (disk : List (Nat × String))
    (path contents : String) (make_dirs : Option Bool) :
    Except Err ClientResult × List (String × FS) × List (Nat × String) :=
  let tokens := (splitChar '/' path).drop 1
  let ref := freshRef disk
  match tokens.getLast? with
  | none => (.error .indexError, fs, disk ++ [(ref, contents)])
  | some lastTok =>
    let r := pushWalk fs tokens.dropLast lastTok ref make_dirs path
    match r.1 with
    | .ok => (.ok .noneVal, r.2, disk ++ [(ref, contents)])
    | .errPost e => (.error e, r.2, disk ++ [(ref, contents)])
    | .errPre e => (.error e, r.2, disk)

/-- Replace the first container with the given name (in-place mutation of
the object found by `next(filter(...))`). -/
def updateFirstContainer (cs : List Container) (cname : String) (f : Container → Container) :
    List Container :=
  match cs with
  | [] => []
  | c :: rest =>
    if c.name = cname then f c :: rest
    else c :: updateFirstContainer rest cname f

/-- The body of the `Client` branches of `wrap_tool`, before the `except`
clause: result, the value of `wrap_errors` when control left the `try`
block, and the resulting pebble state. -/
def clientSimRaw (st : PebbleState) (socket_path : String) :
    ClientCall → Except Err ClientResult × Bool × PebbleState := fun call =>
  match socketContainerName socket_path with
  | .error e => (.error e, true, st)
  | .ok cname =>
    match st.containers.find? (fun c => c.name = cname) with
    | none => (.error (.runtimeError (containerNotFoundMsg cname socket_path)), true, st)
    | some container =>
      match call with
      | .request (.two m u) =>
        if m = "GET" ∧ u = "/v1/system-info" then
          if container.can_connect then (.ok (.versionPayload "unknown"), true, st)
          else (.error (.fileNotFoundError ""), false, st)
        else if m = "GET" ∧ u = "/v1/services" then
          -- args[:2] matches but args[2] is out of range for a 2-tuple
          (.error .indexError, true, st)
        else (.error (.notImplementedError "_request"), true, st)
      | .request (.three m u body) =>
        -- a 3-tuple never equals the 2-tuple ("GET", "/v1/system-info")
        if m = "GET" ∧ u = "/v1/services" then
          match dictGet body "names" with
          | none => (.error (.keyError "names"), true, st)
          | some csv =>
            (.ok (.services (servicesScan container.layers (splitChar ',' csv))), true, st)
        else (.error (.notImplementedError "_request"), true, st)
      | .exec command =>
        match dictGet container.exec_mock command with
        | none => (.error (.runtimeError "mock for cmd not found."), true, st)
        | some out =>
          -- Modelled from the spec: `ExecOutput._run` (scenario.structs, not
          -- under src/) materializes a fresh simulated change id.
          let p : MockExecProcess :=
            { command := command, change_id := st.next_change_id, out := out,
              waited := false, stdout := out.stdout, stderr := out.stderr }
          (.ok (.execProcess p), true,
            { st with next_change_id := st.next_change_id + 1 })
      | .pull path => (pebblePull container.filesystem st.disk path, false, st)
      | .push path contents make_dirs =>
        let r := pebblePush container.filesystem st.disk path contents make_dirs
        (r.1, false,
          { st with
            containers := updateFirstContainer st.containers cname
              (fun c => { c with filesystem := r.2.1 }),
            disk := r.2.2 })

/-- A `Client` tool call through `wrap_tool`: apply the wrapping policy the
`except` clause implements to the raw result. -/
def clientSim (st : PebbleState) (socket_path : String) (call : ClientCall) :
    Except Err ClientResult × PebbleState :=
  let r := clientSimRaw st socket_path call
  (finishTool "Client" call.toolName r.2.1 r.1, r.2.2)

/-! ### Spec-side definitions used to state the claims -/

/-- The mapping of each declared config option to its declared default
(options without a declared default contribute nothing), in declaration
order: the spec's expected result for a schema-defaulted config read. -/
def declaredDefaults (spec : CharmSpec) : List (String × PyVal) :=
  spec.config.filterMap (fun kv => (dictGet kv.2 "default").map (fun d => (kv.1, d)))

theorem dictGet_mem {κ α : Type} [DecidableEq κ] {d : List (κ × α)} {k : κ} {v : α}
    (h : dictGet d k = some v) : (k, v) ∈ d := by
  induction d with
  | nil => simp [dictGet] at h
  | cons p rest ih =>
    obtain ⟨k', v'⟩ := p
    rw [dictGet_cons] at h
    by_cases hk : k' = k
    · simp only [if_pos hk, Option.some.injEq] at h
      subst hk; subst h; exact List.mem_cons_self _ _
    · simp only [if_neg hk] at h
      exact List.mem_cons_of_mem _ (ih h)

theorem dictGet_mapVal {κ α β : Type} [DecidableEq κ] (g : α → β)
    (d : List (κ × α)) (k : κ) :
    dictGet (d.map (fun kv => (kv.1, g kv.2))) k = (dictGet d k).map g := by
  induction d with
  | nil => simp [dictGet]
  | cons p rest ih =>
    obtain ⟨k', v'⟩ := p
    by_cases h : k' = k <;> simp [dictGet_cons, h, ih]

theorem defaults_map_eq_filterMap
    (cfg : List (String × List (String × PyVal)))
    (h : ∀ kv ∈ cfg, (dictGet kv.2 "default").isSome) :
    cfg.map (fun kv => (kv.1, optionDefault kv.2)) =
      cfg.filterMap (fun kv => (dictGet kv.2 "default").map (fun d => (kv.1, d))) := by
  induction cfg with
  | nil => rfl
  | cons kv rest ih =>
    obtain ⟨d, hd⟩ := Option.isSome_iff_exists.mp (h kv (by simp))
    have ihr := ih (fun x hx => h x (List.mem_cons_of_mem _ hx))
    simp [optionDefault, hd]
    simpa [optionDefault] using ihr

/-- When every declared option carries a default, the synthesized config
mapping is exactly the declared-defaults mapping. -/
theorem defaults_map_eq_declaredDefaults {spec : CharmSpec}
    (h : ∀ kv ∈ spec.config, (dictGet kv.2 "default").isSome) :
    spec.config.map (fun kv => (kv.1, optionDefault kv.2)) = declaredDefaults spec :=
  defaults_map_eq_filterMap spec.config h

/-! ### C1 -/

/-- C1: for every Scene containing a Relation with the given relation id,
`relation_set` with the app-scoped flag set while `State.leader` is false
fails with the permission condition (`RuntimeError("needs leadership to set
app data")`, re-raised inside the `StateError` wrapper per the default
wrapping policy), and the State — in particular every Relation's data
mappings — is left unchanged by the failed call. -/
theorem relation_set_app_scoped_not_leader
    (scene : Scene) (spec : CharmSpec) (rel_id : Nat) (key value : String)
    (hrel : (scene.state.relations.find? (fun r => r.meta.relation_id = rel_id)).isSome)
    (hleader : scene.state.leader = false) :
    modelSim scene spec (.relation_set rel_id key value true) =
      (.error (.stateError "_ModelBackend.relation_set"
        (.runtimeError "needs leadership to set app data")), scene.state) := by
  obtain ⟨r, hr⟩ := Option.isSome_iff_exists.mp hrel
  simp [modelSim, modelSimRaw, hr, hleader, finishTool, ModelCall.toolName]

def relationW1 : Relation :=
  { meta := { relation_id := 1, endpoint := "db", interface := "mysql",
              remote_app_name := "remote", remote_unit_ids := [0] },
    local_app_data := [("a", "b")], local_unit_data := [], remote_app_data := [],
    remote_units_data := [] }

def sceneW1 : Scene :=
  { state := { leader := false,
               status := { app := ("unknown", ""), unit := ("unknown", ""),
                           app_version := "" },
               juju_log := [], relations := [relationW1], containers := [],
               config := [] },
    meta := { unit_name := "myapp/0", app_name := "myapp" } }

/-- Witness for C1 at a concrete one-relation Scene with leadership false. -/
theorem relation_set_app_scoped_not_leader_witness :
    ((sceneW1.state.relations.find? (fun r => r.meta.relation_id = 1)).isSome
        ∧ sceneW1.state.leader = false)
    ∧ modelSim sceneW1 { config := [] } (.relation_set 1 "k" "v" true) =
      (.error (.stateError "_ModelBackend.relation_set"
        (.runtimeError "needs leadership to set app data")), sceneW1.state) :=
  ⟨⟨by decide, by decide⟩,
    relation_set_app_scoped_not_leader sceneW1 { config := [] } 1 "k" "v"
      (by decide) (by decide)⟩

/-! ### C2 -/

/-- C2: for every Scene whose `State.config` is empty and whose charm spec
declares config options each carrying a default, `config_get` with no key
returns exactly the mapping of each declared option to its declared
default; and every requested key that has no value in `State.config` and no
declared default fails with the not-found condition (the `KeyError`,
re-raised inside the `StateError` wrapper per the default wrapping
policy). -/
theorem config_get_defaults
    (scene : Scene) (spec : CharmSpec)
    (hempty : scene.state.config = [])
    (hdecl : ∀ kv ∈ spec.config, (dictGet kv.2 "default").isSome) :
    modelSim scene spec (.config_get none) =
      (.ok (.configMap (declaredDefaults spec)), scene.state)
    ∧ ∀ k : String,
        (dictGet spec.config k).bind (fun opt => dictGet opt "default") = none →
        modelSim scene spec (.config_get (some k)) =
          (.error (.stateError "_ModelBackend.config_get" (.keyError k)), scene.state) := by
  constructor
  · simp [modelSim, modelSimRaw, effectiveConfig, hempty, finishTool, ModelCall.toolName,
      defaults_map_eq_declaredDefaults hdecl]
  · intro k hk
    have hnone : dictGet spec.config k = none := by
      cases hopt : dictGet spec.config k with
      | none => rfl
      | some opt =>
        exfalso
        have hsome := hdecl (k, opt) (dictGet_mem hopt)
        rw [hopt] at hk
        simp only [Option.some_bind] at hk
        rw [hk] at hsome
        simp at hsome
    have : dictGet (spec.config.map (fun kv => (kv.1, optionDefault kv.2))) k = none := by
      rw [dictGet_mapVal]
      simp [hnone]
    simp [modelSim, modelSimRaw, effectiveConfig, hempty, finishTool, ModelCall.toolName, this]

def sceneW2 : Scene :=
  { state := { leader := true,
               status := { app := ("unknown", ""), unit := ("unknown", ""),
                           app_version := "" },
               juju_log := [], relations := [], containers := [], config := [] },
    meta := { unit_name := "myapp/0", app_name := "myapp" } }

def specW2 : CharmSpec :=
  { config := [("alpha", [("default", .str "x"), ("type", .str "string")]),
               ("beta", [("default", .int 3)])] }

/-- Witness for C2 at a concrete empty-config Scene with a two-option
schema, requesting the undeclared key "gamma". -/
theorem config_get_defaults_witness :
    (sceneW2.state.config = []
      ∧ (∀ kv ∈ specW2.config, (dictGet kv.2 "default").isSome)
      ∧ (dictGet specW2.config "gamma").bind (fun opt => dictGet opt "default") = none)
    ∧ modelSim sceneW2 specW2 (.config_get none) =
        (.ok (.configMap (declaredDefaults specW2)), sceneW2.state)
    ∧ modelSim sceneW2 specW2 (.config_get (some "gamma")) =
        (.error (.stateError "_ModelBackend.config_get" (.keyError "gamma")),
          sceneW2.state) := by
  have h := config_get_defaults sceneW2 specW2 (by decide) (by decide)
  exact ⟨⟨by decide, by decide, by decide⟩, h.1, h.2 "gamma" (by decide)⟩

/-! ### C3 -/

/-- C3: for every Scene and every container matched by the client handle,
`_request("GET", "/v1/system-info")` returns the version payload exactly
when the container's `can_connect` flag is true; when it is false the call
raises the connection-refused condition (`FileNotFoundError`), and that
condition propagates unwrapped — the result is the bare condition, not the
`StateError` wrapper. -/
theorem system_info_payload_iff_can_connect
    (st : PebbleState) (socket_path cname : String) (c : Container)
    (hname : socketContainerName socket_path = .ok cname)
    (hfind : st.containers.find? (fun x => x.name = cname) = some c) :
    clientSim st socket_path (.request (.two "GET" "/v1/system-info")) =
      ((if c.can_connect then .ok (.versionPayload "unknown")
        else .error (.fileNotFoundError "")), st) := by
  cases hc : c.can_connect <;>
    simp [clientSim, clientSimRaw, hname, hfind, hc, finishTool, ClientCall.toolName]

def containerW3 : Container :=
  { name := "c", filesystem := [], exec_mock := [], can_connect := false,
    layers := [] }

def stW3 : PebbleState := { containers := [containerW3], disk := [], next_change_id := 0 }

/-- Witness for C3 at a concrete unreachable container. -/
theorem system_info_payload_iff_can_connect_witness :
    (socketContainerName "/charm/c/pebble.sock" = .ok "c"
      ∧ stW3.containers.find? (fun x => x.name = "c") = some containerW3)
    ∧ clientSim stW3 "/charm/c/pebble.sock" (.request (.two "GET" "/v1/system-info")) =
        ((if containerW3.can_connect then .ok (.versionPayload "unknown")
          else .error (.fileNotFoundError "")), stW3) :=
  ⟨⟨rfl, rfl⟩,
    system_info_payload_iff_can_connect stW3 "/charm/c/pebble.sock" "c" containerW3
      rfl rfl⟩

/-! ### C4 -/

def containerW4 : Container :=
  { name := "c", filesystem := [], exec_mock := [], can_connect := true,
    layers := [{ services := [("a", "defA"), ("b", "defB")] }] }

def stW4 : PebbleState := { containers := [containerW4], disk := [], next_change_id := 0 }

/-- C4 failing input, evaluated: one layer declares both requested services
"a" and "b", yet the scan returns only "a"'s definition.  The inner loop
iterates over `service_names` by index while `remove(name)` shifts the
remaining names down, so the name straight after a found one is skipped —
contradicting the claimed "each requested service name still outstanding is
satisfied by the first layer that declares it". -/
theorem services_scan_skips_name_after_found :
    clientSim stW4 "/charm/c/pebble.sock"
        (.request (.three "GET" "/v1/services" [("names", "a,b")])) =
      (.ok (.services ["defA"]), stW4) := by
  simp [clientSim, clientSimRaw, stW4, containerW4, socketContainerName, splitChar,
    splitCharAux, servicesScan, layerScan, dictGet, removeFirst, finishTool,
    ClientCall.toolName]

/-! ### C5 -/

/-- C5 counterexample: a pull on a Scene with no configured containers.
The lookup condition (`RuntimeError`) is re-raised INSIDE the `StateError`
wrapper — `wrap_errors` is still `True` when the resolution fails, since
the branches that clear it are only reached after resolution — refuting the
claim that it propagates unwrapped. -/
theorem container_lookup_wrapped_counterexample :
    clientSim { containers := [], disk := [], next_change_id := 0 } "/charm/c/pebble.sock"
        (.pull "/etc/hosts") =
      (.error (.stateError "Client.pull"
        (.runtimeError (containerNotFoundMsg "c" "/charm/c/pebble.sock"))),
        { containers := [], disk := [], next_change_id := 0 })
    ∧ (clientSim { containers := [], disk := [], next_change_id := 0 } "/charm/c/pebble.sock"
        (.pull "/etc/hosts")).1 ≠
      .error (.runtimeError (containerNotFoundMsg "c" "/charm/c/pebble.sock")) :=
  ⟨rfl, by simp [clientSim, clientSimRaw, socketContainerName, splitChar, splitCharAux,
    finishTool, ClientCall.toolName]⟩

/-- C5 amended: for every workload-namespace call whose originating client
handle matches no configured Container, the operation fails with the lookup
condition re-raised inside the state-error wrapper (wrapped, because
`wrap_errors` is only cleared inside per-operation branches that are
reached after container resolution), and the state is unchanged. -/
theorem container_lookup_failure_wrapped
    (st : PebbleState) (socket_path cname : String) (call : ClientCall)
    (hname : socketContainerName socket_path = .ok cname)
    (hfind : st.containers.find? (fun c => c.name = cname) = none) :
    clientSim st socket_path call =
      (.error (.stateError ("Client." ++ call.toolName)
        (.runtimeError (containerNotFoundMsg cname socket_path))), st) := by
  simp [clientSim, clientSimRaw, hname, hfind, finishTool]

/-- Witness for the amended C5 on a concrete empty-container Scene. -/
theorem container_lookup_failure_wrapped_witness :
    (socketContainerName "/charm/c/pebble.sock" = .ok "c"
      ∧ (PebbleState.mk [] [] 0).containers.find? (fun c => c.name = "c") = none)
    ∧ clientSim (PebbleState.mk [] [] 0) "/charm/c/pebble.sock" (.exec ["ls"]) =
        (.error (.stateError ("Client." ++ (ClientCall.exec ["ls"]).toolName)
          (.runtimeError (containerNotFoundMsg "c" "/charm/c/pebble.sock"))),
          PebbleState.mk [] [] 0) :=
  ⟨⟨rfl, rfl⟩,
    container_lookup_failure_wrapped (PebbleState.mk [] [] 0) "/charm/c/pebble.sock" "c"
      (.exec ["ls"]) rfl rfl⟩

/-! ### C8 -/

/-- C8: for every command tuple present in a container's canned-exec
mapping, `exec` returns a process handle bound to the canned output whose
`wait_output()` returns exactly the canned stdout/stderr when the canned
exit code is zero, and whose `wait()` and `wait_output()` both raise the
process-failure condition (`pebble.ExecError`) exactly when the canned exit
code is non-zero. -/
theorem exec_canned_result
    (st : PebbleState) (socket_path cname : String) (c : Container)
    (cmd : List String) (out : ExecOutput)
    (hname : socketContainerName socket_path = .ok cname)
    (hfind : st.containers.find? (fun x => x.name = cname) = some c)
    (hcmd : dictGet c.exec_mock cmd = some out) :
    ∃ p : MockExecProcess,
      clientSim st socket_path (.exec cmd) =
        (.ok (.execProcess p), { st with next_change_id := st.next_change_id + 1 })
      ∧ p.out = out ∧ p.command = cmd
      ∧ (out.return_code = 0 →
          (p.wait_output).2 = .ok (out.stdout, out.stderr) ∧ (p.wait).2 = .ok ())
      ∧ (out.return_code ≠ 0 →
          (p.wait_output).2 = .error (.execError cmd out.return_code)
          ∧ (p.wait).2 = .error (.execError cmd out.return_code)) := by
  refine ⟨{ command := cmd, change_id := st.next_change_id, out := out, waited := false,
            stdout := out.stdout, stderr := out.stderr }, ?_, rfl, rfl, ?_, ?_⟩
  · simp [clientSim, clientSimRaw, hname, hfind, hcmd, finishTool, ClientCall.toolName]
  · intro h0
    simp [MockExecProcess.wait_output, MockExecProcess.wait, h0]
  · intro h0
    simp [MockExecProcess.wait_output, MockExecProcess.wait, h0]

def outW8 : ExecOutput := { stdout := "ok", stderr := "", return_code := 1 }

def containerW8 : Container :=
  { name := "c", filesystem := [], exec_mock := [(["ls"], outW8)], can_connect := true,
    layers := [] }

def stW8 : PebbleState := { containers := [containerW8], disk := [], next_change_id := 0 }

/-- Witness for C8 at a concrete canned command with exit code 1. -/
theorem exec_canned_result_witness :
    (socketContainerName "/charm/c/pebble.sock" = .ok "c"
      ∧ stW8.containers.find? (fun x => x.name = "c") = some containerW8
      ∧ dictGet containerW8.exec_mock ["ls"] = some outW8)
    ∧ ∃ p : MockExecProcess,
      clientSim stW8 "/charm/c/pebble.sock" (.exec ["ls"]) =
        (.ok (.execProcess p), { stW8 with next_change_id := stW8.next_change_id + 1 })
      ∧ p.out = outW8 ∧ p.command = ["ls"]
      ∧ (outW8.return_code = 0 →
          (p.wait_output).2 = .ok (outW8.stdout, outW8.stderr) ∧ (p.wait).2 = .ok ())
      ∧ (outW8.return_code ≠ 0 →
          (p.wait_output).2 = .error (.execError ["ls"] outW8.return_code)
          ∧ (p.wait).2 = .error (.execError ["ls"] outW8.return_code)) :=
  ⟨⟨rfl, rfl, rfl⟩,
    exec_canned_result stW8 "/charm/c/pebble.sock" "c" containerW8 ["ls"] outW8
      rfl rfl rfl⟩

/-! ### C9 -/

def procW9 : MockExecProcess :=
  { command := ["echo"], change_id := 0,
    out := { stdout := "o", stderr := "e", return_code := 0 },
    waited := false, stdout := "o", stderr := "e" }

/-- C9 counterexample: calling `wait_output()` first on a fresh handle
(canned exit code 0) leaves the `waited` flag false — the source only sets
`self._waited = True` inside `wait()`, never in `wait_output()`. -/
theorem wait_output_leaves_waited_false_counterexample :
    (procW9.wait_output).1.waited = false ∧ (procW9.wait_output).2.isOk := by
  constructor <;> rfl

/-- C9 amended: after a call to `wait()` the handle's `waited` flag is true
(regardless of the canned exit code); a call to `wait_output()` leaves the
flag exactly as it was. -/
theorem waited_flag_set_by_wait_only (p : MockExecProcess) :
    (p.wait).1.waited = true ∧ (p.wait_output).1.waited = p.waited := by
  unfold MockExecProcess.wait MockExecProcess.wait_output
  constructor <;> split <;> rfl

/-- Witness for the amended C9 at a concrete handle. -/
theorem waited_flag_set_by_wait_only_witness :
    ((procW9.wait).1.waited = true ∧ (procW9.wait_output).1.waited = procW9.waited) :=
  waited_flag_set_by_wait_only procW9

/-! ### Path-walk predicates for the push/pull claims -/

/-- Every intermediate path segment that already exists in the tree is a
directory node (a falsy empty directory counts as fine here: the push walk
with `make_dirs=True` simply rebuilds it as a fresh dict).  Only a `Path`
(file) node blocks the walk. -/
def intermediatesOk : List (String × FS) → List String → Bool
  | _, [] => true
  | es, t :: rest =>
    match dictGet es t with
    | none => true
    | some (.file _) => false
    | some (.dir sub) => if sub.isEmpty then true else intermediatesOk sub rest

/-- The walk of the intermediate path segments reaches, descending only
through directory nodes, a segment that is absent from the tree: the
formalization of "a path with a missing intermediate segment". -/
def missingViaDirs : List (String × FS) → List String → Bool
  | _, [] => false
  | es, t :: rest =>
    match dictGet es t with
    | none => true
    | some (.file _) => false
    | some (.dir sub) => missingViaDirs sub rest

/-- Every intermediate path segment resolves to a non-empty directory node
(the only condition under which the push walk never consults
`make_dirs`). -/
def parentsExistNonempty : List (String × FS) → List String → Bool
  | _, [] => true
  | es, t :: rest =>
    match dictGet es t with
    | some (.dir sub) => !sub.isEmpty && parentsExistNonempty sub rest
    | _ => false

theorem intermediatesOk_nil (ts : List String) : intermediatesOk [] ts = true := by
  cases ts <;> simp [intermediatesOk, dictGet]

theorem missingViaDirs_ne_nil {es : List (String × FS)} {ts : List String}
    (h : missingViaDirs es ts = true) : ts ≠ [] := by
  intro hts
  subst hts
  simp [missingViaDirs] at h

/-! ### Core push/pull walk lemmas -/

/-- With `make_dirs=True` and no file node blocking the intermediate walk,
the push walk succeeds, produces a non-empty dict, and the pull walk of the
same tokens through the resulting tree resolves to the freshly bound file
ref. -/
theorem fsTruthy_dir_of_ne_nil {es : List (String × FS)} (h : es ≠ []) :
    fsTruthy (.dir es) = true := by
  simp [fsTruthy, h]

theorem pushWalk_roundtrip (ts : List String) (es : List (String × FS))
    (lastTok : String) (ref : Nat) (path : String)
    (hok : intermediatesOk es ts = true) :
    (pushWalk es ts lastTok ref (some true) path).1 = .ok
    ∧ (pushWalk es ts lastTok ref (some true) path).2 ≠ []
    ∧ pullWalk path (.dir (pushWalk es ts lastTok ref (some true) path).2)
        (ts ++ [lastTok]) = .ok (.file ref) := by
  induction ts generalizing es with
  | nil =>
    refine ⟨rfl, dictSet_ne_nil _ _ _, ?_⟩
    simp [pushWalk, pullWalk, dictGet_dictSet_self, fsTruthy]
  | cons t rest ih =>
    cases hget : dictGet es t with
    | none =>
      obtain ⟨h1, h2, h3⟩ := ih [] (intermediatesOk_nil rest)
      refine ⟨?_, ?_, ?_⟩
      · simp [pushWalk, hget, h1]
      · simp [pushWalk, hget, dictSet_ne_nil]
      · simp [pushWalk, hget, pullWalk, dictGet_dictSet_self,
          fsTruthy_dir_of_ne_nil h2, h3]
    | some node =>
      cases node with
      | file f =>
        exfalso
        simp [intermediatesOk, hget] at hok
      | dir sub =>
        by_cases hsub : sub.isEmpty
        · obtain ⟨h1, h2, h3⟩ := ih [] (intermediatesOk_nil rest)
          refine ⟨?_, ?_, ?_⟩
          · simp [pushWalk, hget, hsub, h1]
          · simp [pushWalk, hget, hsub, dictSet_ne_nil]
          · simp [pushWalk, hget, hsub, pullWalk, dictGet_dictSet_self,
              fsTruthy_dir_of_ne_nil h2, h3]
        · have hok2 : intermediatesOk sub rest = true := by
            simpa [intermediatesOk, hget, hsub] using hok
          have hf : sub.isEmpty = false := by simpa using hsub
          obtain ⟨h1, h2, h3⟩ := ih sub hok2
          refine ⟨?_, ?_, ?_⟩
          · simp [pushWalk, hget, hf, h1]
          · simp [pushWalk, hget, hf, dictSet_ne_nil]
          · simp [pushWalk, hget, hf, pullWalk, dictGet_dictSet_self,
              fsTruthy_dir_of_ne_nil h2, h3]

/-- When the intermediate walk reaches a falsy node (through directories)
and `make_dirs` is false or absent, the push walk stops before the temp
file is written, raises the corresponding condition, and leaves the tree
untouched. -/
theorem pushWalk_falsy_stops (ts : List String) (es : List (String × FS))
    (lastTok : String) (ref : Nat) (path : String) (md : Option Bool) (e : Err)
    (hmd : (md = some false ∧ e = .fileNotFoundError path)
      ∨ (md = none ∧ e = .keyError "make_dirs"))
    (hmiss : missingViaDirs es ts = true) :
    pushWalk es ts lastTok ref md path = (.errPre e, es) := by
  induction ts generalizing es with
  | nil => simp [missingViaDirs] at hmiss
  | cons t rest ih =>
    cases hget : dictGet es t with
    | none =>
      rcases hmd with ⟨hmd, he⟩ | ⟨hmd, he⟩ <;> subst hmd <;> subst he <;>
        simp [pushWalk, hget]
    | some node =>
      cases node with
      | file f =>
        exfalso
        simp [missingViaDirs, hget] at hmiss
      | dir sub =>
        by_cases hsub : sub.isEmpty
        · rcases hmd with ⟨hmd, he⟩ | ⟨hmd, he⟩ <;> subst hmd <;> subst he <;>
            simp [pushWalk, hget, hsub]
        · have hmiss2 : missingViaDirs sub rest = true := by
            simpa [missingViaDirs, hget] using hmiss
          have hf : sub.isEmpty = false := by simpa using hsub
          have hrec := ih sub hmiss2
          simp [pushWalk, hget, hf, hrec, dictSet_self hget]

theorem freshRef_gt (disk : List (Nat × String)) : ∀ p ∈ disk, p.1 < freshRef disk := by
  induction disk with
  | nil => simp
  | cons q rest ih =>
    intro p hp
    rcases List.mem_cons.mp hp with h | h
    · subst h
      simp only [freshRef, List.foldr_cons]
      exact lt_max_of_lt_left (Nat.lt_succ_self _)
    · exact lt_max_of_lt_right (by simpa [freshRef] using ih p h)

theorem dictGet_none_of_lt (disk : List (Nat × String)) (k : Nat)
    (h : ∀ p ∈ disk, p.1 < k) : dictGet disk k = none := by
  induction disk with
  | nil => rfl
  | cons q rest ih =>
    obtain ⟨r, c⟩ := q
    have hq := h (r, c) (by simp)
    rw [dictGet_cons]
    rw [if_neg (by omega)]
    exact ih (fun p hp => h p (List.mem_cons_of_mem _ hp))

/-- The freshly written temp file is found on the extended disk. -/
theorem dictGet_freshRef_append (disk : List (Nat × String)) (c : String) :
    dictGet (disk ++ [(freshRef disk, c)]) (freshRef disk) = some c := by
  rw [dictGet_append, dictGet_none_of_lt disk _ (freshRef_gt disk)]
  simp [dictGet_cons]

theorem find?_updateFirstContainer (cs : List Container) (cname : String)
    (f : Container → Container) (c : Container)
    (hf : ∀ x, (f x).name = x.name)
    (h : cs.find? (fun x => x.name = cname) = some c) :
    (updateFirstContainer cs cname f).find? (fun x => x.name = cname) = some (f c) := by
  induction cs with
  | nil => simp at h
  | cons c0 rest ih =>
    by_cases h0 : c0.name = cname
    · rw [List.find?_cons_of_pos _ (by simp [h0])] at h
      injection h with h
      subst h
      unfold updateFirstContainer
      rw [if_pos h0, List.find?_cons_of_pos _ (by simp [hf, h0])]
    · rw [List.find?_cons_of_neg _ (by simp [h0])] at h
      unfold updateFirstContainer
      rw [if_neg h0, List.find?_cons_of_neg _ (by simp [h0])]
      exact ih h

/-- Rebinding the found container's filesystem to its current value leaves
the container list unchanged. -/
theorem updateFirstContainer_found_self (cs : List Container) (cname : String)
    (f : Container → Container) (c : Container)
    (h : cs.find? (fun x => x.name = cname) = some c)
    (hfc : f c = c) :
    updateFirstContainer cs cname f = cs := by
  induction cs with
  | nil => rfl
  | cons c0 rest ih =>
    by_cases h0 : c0.name = cname
    · rw [List.find?_cons_of_pos _ (by simp [h0])] at h
      injection h with h
      subst h
      unfold updateFirstContainer
      rw [if_pos h0, hfc]
    · rw [List.find?_cons_of_neg _ (by simp [h0])] at h
      unfold updateFirstContainer
      rw [if_neg h0, ih h]

/-- When every intermediate segment is a non-empty directory node, the push
walk succeeds without ever consulting `make_dirs`. -/
theorem pushWalk_parents_exist (ts : List String) (es : List (String × FS))
    (lastTok : String) (ref : Nat) (path : String) (md : Option Bool)
    (hpar : parentsExistNonempty es ts = true) :
    (pushWalk es ts lastTok ref md path).1 = .ok := by
  induction ts generalizing es with
  | nil => rfl
  | cons t rest ih =>
    cases hget : dictGet es t with
    | none => simp [parentsExistNonempty, hget] at hpar
    | some node =>
      cases node with
      | file f => simp [parentsExistNonempty, hget] at hpar
      | dir sub =>
        have hp := hpar
        simp only [parentsExistNonempty, hget, Bool.and_eq_true, Bool.not_eq_true] at hp
        obtain ⟨hsub, hrest⟩ := hp
        have hf : sub.isEmpty = false := by simpa using hsub
        simp [pushWalk, hget, hf, ih sub hrest]

/-- `pebblePush` with `make_dirs=True` on a tree whose existing
intermediate nodes are all directories: success, and the subsequent
`pebblePull` of the same path on the resulting tree and disk returns the
pushed contents. -/
theorem pebblePush_pull_roundtrip (fs : List (String × FS)) (disk : List (Nat × String))
    (path contents : String)
    (htok : (splitChar '/' path).drop 1 ≠ [])
    (hok : intermediatesOk fs ((splitChar '/' path).drop 1).dropLast = true) :
    (pebblePush fs disk path contents (some true)).1 = .ok .noneVal
    ∧ pebblePull (pebblePush fs disk path contents (some true)).2.1
        (pebblePush fs disk path contents (some true)).2.2 path =
          .ok (.fileHandle contents) := by
  have hlast := List.getLast?_eq_getLast _ htok
  obtain ⟨h1, h2, h3⟩ := pushWalk_roundtrip ((splitChar '/' path).drop 1).dropLast fs
    (((splitChar '/' path).drop 1).getLast htok) (freshRef disk) path hok
  have hpush : pebblePush fs disk path contents (some true) =
      (.ok .noneVal,
        (pushWalk fs ((splitChar '/' path).drop 1).dropLast
          (((splitChar '/' path).drop 1).getLast htok) (freshRef disk) (some true) path).2,
        disk ++ [(freshRef disk, contents)]) := by
    simp only [pebblePush, hlast]
    rw [h1]
  refine ⟨by rw [hpush], ?_⟩
  rw [hpush]
  rw [List.dropLast_append_getLast htok] at h3
  simp only [pebblePull, h3]
  simp [dictGet_freshRef_append]

/-- `pebblePush` when the intermediate walk reaches a falsy node through
directories and `make_dirs` is false or absent: the corresponding condition
is raised before the temp file is written, and tree and disk are both
untouched. -/
theorem pebblePush_falsy (fs : List (String × FS)) (disk : List (Nat × String))
    (path contents : String) (md : Option Bool) (e : Err)
    (hmd : (md = some false ∧ e = .fileNotFoundError path)
      ∨ (md = none ∧ e = .keyError "make_dirs"))
    (hmiss : missingViaDirs fs ((splitChar '/' path).drop 1).dropLast = true) :
    pebblePush fs disk path contents md = (.error e, fs, disk) := by
  have hne : ((splitChar '/' path).drop 1).dropLast ≠ [] := missingViaDirs_ne_nil hmiss
  have htok : (splitChar '/' path).drop 1 ≠ [] := by
    intro h
    rw [h] at hne
    exact hne rfl
  have hlast := List.getLast?_eq_getLast _ htok
  have hw := pushWalk_falsy_stops ((splitChar '/' path).drop 1).dropLast fs
    (((splitChar '/' path).drop 1).getLast htok) (freshRef disk) path md e hmd hmiss
  simp only [pebblePush, hlast]
  rw [hw]

/-! ### C6 -/

def containerW6 : Container :=
  { name := "c", filesystem := [("a", .file 0)], exec_mock := [], can_connect := true,
    layers := [] }

/-- C6 counterexample: the tree binds a FILE node at "/a"; a push of
"/a/b" with `make_dirs=True` does not succeed (the final
`pos[tokens[-1]] = pth` lands on a `Path` cursor and raises `TypeError`),
so the claimed round-trip for EVERY tree and EVERY absolute path fails. -/
theorem push_pull_roundtrip_counterexample :
    (clientSim { containers := [containerW6], disk := [], next_change_id := 0 }
      "/charm/c/pebble.sock" (.push "/a/b" "data" (some true))).1 =
      .error (.typeError "item assignment") := rfl

/-- C6 amended: for every container matched by the client handle, every
path whose tokenization is non-empty, and every contents string, PROVIDED
every intermediate path segment that already exists in the container's tree
is a directory node, the push with `make_dirs=True` succeeds (creating the
missing intermediate directory nodes) and the subsequent pull of the exact
same path on the same container returns exactly the pushed contents. -/
theorem push_then_pull_returns_contents
    (st : PebbleState) (socket_path cname : String) (c : Container)
    (path contents : String)
    (hname : socketContainerName socket_path = .ok cname)
    (hfind : st.containers.find? (fun x => x.name = cname) = some c)
    (htok : (splitChar '/' path).drop 1 ≠ [])
    (hok : intermediatesOk c.filesystem ((splitChar '/' path).drop 1).dropLast = true) :
    (clientSim st socket_path (.push path contents (some true))).1 = .ok .noneVal
    ∧ (clientSim (clientSim st socket_path (.push path contents (some true))).2
        socket_path (.pull path)).1 = .ok (.fileHandle contents) := by
  obtain ⟨hp, hpull⟩ := pebblePush_pull_roundtrip c.filesystem st.disk path contents htok hok
  have hpush1 : clientSim st socket_path (.push path contents (some true)) =
      (.ok .noneVal,
        { st with
          containers := updateFirstContainer st.containers cname
            (fun x => { x with
              filesystem := (pebblePush c.filesystem st.disk path contents (some true)).2.1 }),
          disk := (pebblePush c.filesystem st.disk path contents (some true)).2.2 }) := by
    simp [clientSim, clientSimRaw, hname, hfind, ClientCall.toolName, finishTool, hp]
  refine ⟨by rw [hpush1], ?_⟩
  rw [hpush1]
  have hfind2 := find?_updateFirstContainer st.containers cname
    (fun x => { x with
      filesystem := (pebblePush c.filesystem st.disk path contents (some true)).2.1 })
    c (fun x => rfl) hfind
  simp [clientSim, clientSimRaw, hname, hfind2, ClientCall.toolName, finishTool, hpull]

def containerW6b : Container :=
  { name := "c", filesystem := [], exec_mock := [], can_connect := true, layers := [] }

def stW6b : PebbleState := { containers := [containerW6b], disk := [], next_change_id := 0 }

/-- Witness for the amended C6: push then pull of "/a/b/c" on an empty
tree. -/
theorem push_then_pull_returns_contents_witness :
    (socketContainerName "/charm/c/pebble.sock" = .ok "c"
      ∧ stW6b.containers.find? (fun x => x.name = "c") = some containerW6b
      ∧ (splitChar '/' "/a/b/c").drop 1 ≠ []
      ∧ intermediatesOk containerW6b.filesystem
          ((splitChar '/' "/a/b/c").drop 1).dropLast = true)
    ∧ ((clientSim stW6b "/charm/c/pebble.sock" (.push "/a/b/c" "data" (some true))).1 =
        .ok .noneVal
      ∧ (clientSim
          (clientSim stW6b "/charm/c/pebble.sock" (.push "/a/b/c" "data" (some true))).2
          "/charm/c/pebble.sock" (.pull "/a/b/c")).1 = .ok (.fileHandle "data")) :=
  ⟨⟨rfl, rfl, by decide, by decide⟩,
    push_then_pull_returns_contents stW6b "/charm/c/pebble.sock" "c" containerW6b
      "/a/b/c" "data" rfl rfl (by decide) (by decide)⟩

/-! ### C7 -/

/-- C7: for every container matched by the client handle and every path
whose intermediate walk reaches — descending through directory nodes — a
segment absent from the tree, a push with `make_dirs=False` fails with the
not-found condition (`FileNotFoundError` carrying the path), that condition
propagates unwrapped (the result is the bare condition, not the
`StateError` wrapper), and the container's filesystem tree and the disk are
left unmodified by the failed call. -/
theorem push_missing_parent_no_makedirs
    (st : PebbleState) (socket_path cname : String) (c : Container)
    (path contents : String)
    (hname : socketContainerName socket_path = .ok cname)
    (hfind : st.containers.find? (fun x => x.name = cname) = some c)
    (hmiss : missingViaDirs c.filesystem ((splitChar '/' path).drop 1).dropLast = true) :
    clientSim st socket_path (.push path contents (some false)) =
      (.error (.fileNotFoundError path), st) := by
  have hpp := pebblePush_falsy c.filesystem st.disk path contents (some false)
    (.fileNotFoundError path) (Or.inl ⟨rfl, rfl⟩) hmiss
  have hcont : updateFirstContainer st.containers cname
      (fun x => { x with filesystem := c.filesystem }) = st.containers :=
    updateFirstContainer_found_self st.containers cname _ c hfind rfl
  simp [clientSim, clientSimRaw, hname, hfind, ClientCall.toolName, finishTool, hpp, hcont]

def containerW7 : Container :=
  { name := "c", filesystem := [("a", .dir [("x", .file 5)])], exec_mock := [],
    can_connect := true, layers := [] }

def stW7 : PebbleState := { containers := [containerW7], disk := [], next_change_id := 0 }

/-- Witness for C7: push of "/a/missing/b" with `make_dirs=False` where
"missing" is absent under the directory "a". -/
theorem push_missing_parent_no_makedirs_witness :
    (socketContainerName "/charm/c/pebble.sock" = .ok "c"
      ∧ stW7.containers.find? (fun x => x.name = "c") = some containerW7
      ∧ missingViaDirs containerW7.filesystem
          ((splitChar '/' "/a/missing/b").drop 1).dropLast = true)
    ∧ clientSim stW7 "/charm/c/pebble.sock" (.push "/a/missing/b" "data" (some false)) =
        (.error (.fileNotFoundError "/a/missing/b"), stW7) :=
  ⟨⟨rfl, rfl, by decide⟩,
    push_missing_parent_no_makedirs stW7 "/charm/c/pebble.sock" "c" containerW7
      "/a/missing/b" "data" rfl rfl (by decide)⟩

/-! ### C10 -/

/-- C10 counterexample: the parent directory "/a" of "/a/b" EXISTS in the
tree (as an empty directory node), yet a push of "/a/b" with no `make_dirs`
keyword does not succeed: the walk treats the falsy empty dict as missing
and `call_kwargs["make_dirs"]` raises `KeyError`. -/
theorem push_existing_parent_no_kwarg_counterexample :
    (clientSim
      { containers := [{ name := "c", filesystem := [("a", .dir [])], exec_mock := [],
                         can_connect := true, layers := [] }],
        disk := [], next_change_id := 0 }
      "/charm/c/pebble.sock" (.push "/a/b" "data" none)).1 =
      .error (.keyError "make_dirs") := rfl

/-- C10 amended: the `make_dirs` keyword is only consulted when the
intermediate walk encounters a falsy node (a missing segment or an
empty-directory binding): a push whose intermediate segments all resolve to
NON-EMPTY directory nodes succeeds with no `make_dirs` keyword supplied,
whereas a push whose intermediate walk reaches — through directory nodes —
a missing segment with no `make_dirs` keyword fails with the key-lookup
error (`KeyError`, not the not-found condition), propagated unwrapped, with
the state unchanged. -/
theorem push_makedirs_only_consulted_on_falsy
    (st : PebbleState) (socket_path cname : String) (c : Container)
    (path contents : String)
    (hname : socketContainerName socket_path = .ok cname)
    (hfind : st.containers.find? (fun x => x.name = cname) = some c) :
    ((splitChar '/' path).drop 1 ≠ [] →
      parentsExistNonempty c.filesystem ((splitChar '/' path).drop 1).dropLast = true →
      (clientSim st socket_path (.push path contents none)).1 = .ok .noneVal)
    ∧ (missingViaDirs c.filesystem ((splitChar '/' path).drop 1).dropLast = true →
      clientSim st socket_path (.push path contents none) =
        (.error (.keyError "make_dirs"), st)) := by
  constructor
  · intro htok hpar
    have hwp := pushWalk_parents_exist ((splitChar '/' path).drop 1).dropLast c.filesystem
      (((splitChar '/' path).drop 1).getLast htok) (freshRef st.disk) path none hpar
    have hpp : (pebblePush c.filesystem st.disk path contents none).1 = .ok .noneVal := by
      simp only [pebblePush, List.getLast?_eq_getLast _ htok]
      rw [hwp]
    simp [clientSim, clientSimRaw, hname, hfind, ClientCall.toolName, finishTool, hpp]
  · intro hmiss
    have hpp := pebblePush_falsy c.filesystem st.disk path contents none
      (.keyError "make_dirs") (Or.inr ⟨rfl, rfl⟩) hmiss
    have hcont : updateFirstContainer st.containers cname
        (fun x => { x with filesystem := c.filesystem }) = st.containers :=
      updateFirstContainer_found_self st.containers cname _ c hfind rfl
    simp [clientSim, clientSimRaw, hname, hfind, ClientCall.toolName, finishTool, hpp, hcont]

def containerW10 : Container :=
  { name := "c", filesystem := [("a", .dir [("x", .file 5)])], exec_mock := [],
    can_connect := true, layers := [] }

def stW10 : PebbleState := { containers := [containerW10], disk := [], next_change_id := 0 }

/-- Witness for the amended C10 on a concrete container: "/a/b", whose
single intermediate segment "a" is a non-empty directory, succeeds with no
`make_dirs` keyword; "/a/missing/b", whose walk reaches the absent segment
"missing", fails with the bare `KeyError`. -/
theorem push_makedirs_only_consulted_on_falsy_witness :
    (socketContainerName "/charm/c/pebble.sock" = .ok "c"
      ∧ stW10.containers.find? (fun x => x.name = "c") = some containerW10
      ∧ (splitChar '/' "/a/b").drop 1 ≠ []
      ∧ parentsExistNonempty containerW10.filesystem
          ((splitChar '/' "/a/b").drop 1).dropLast = true
      ∧ missingViaDirs containerW10.filesystem
          ((splitChar '/' "/a/missing/b").drop 1).dropLast = true)
    ∧ (clientSim stW10 "/charm/c/pebble.sock" (.push "/a/b" "data" none)).1 = .ok .noneVal
    ∧ clientSim stW10 "/charm/c/pebble.sock" (.push "/a/missing/b" "data" none) =
        (.error (.keyError "make_dirs"), stW10) :=
  ⟨⟨rfl, rfl, by decide, by decide, by decide⟩,
    (push_makedirs_only_consulted_on_falsy stW10 "/charm/c/pebble.sock" "c" containerW10
      "/a/b" "data" rfl rfl).1 (by decide) (by decide),
    (push_makedirs_only_consulted_on_falsy stW10 "/charm/c/pebble.sock" "c" containerW10
      "/a/missing/b" "data" rfl rfl).2 (by decide)⟩

end Scenario
